import Mathlib

/-!
Shallow embedding of the core utilities of the events-calendar-widget
end-to-end test repository:

* `withRetry` — the retry/backoff wrapper (src/unnamed/part_007, lines 171-222);
* `classifyError` — the error classifier (src/src/utils/errorHandler.ts, lines 32-56);
* `transliterate` / `generateScreenshotName` — the artifact namer
  (src/unnamed/part_008, lines 219-327);
* `copyToClipboard` — the clipboard fallback chain
  (src/src/utils/helpers.ts, lines 83-123).

Asynchronous operations are modelled as pure functions from the attempt
number to an `Except` outcome; side effects (operation invocations,
`onRetry` calls, timer waits, DOM mutations) are made observable through
explicit event traces and threaded state.  JavaScript strings are modelled
as `List Char`.
-/

/- ## Retry policy (withRetry, src/unnamed/part_007) -/

/-- A JavaScript `Error` object: `ref` models object identity (the heap
reference compared by `===`), `message` its message. -/
structure JSError where
  ref : Nat
  message : List Char
deriving DecidableEq, Repr

/-- A value thrown by the wrapped operation: either an `Error` instance or a
non-`Error` value, recorded via its `String(v)` conversion. -/
inductive Thrown where
  | err (e : JSError)
  | nonErr (s : List Char)
deriving DecidableEq, Repr

/-- Observable events of one `withRetry` run: an invocation of the wrapped
operation (with its 1-indexed attempt number), a call of the `onRetry`
observer, and a timer wait of the given number of milliseconds. -/
inductive RetryEvent where
  | att (k : Nat)
  | onRetryCall (k : Nat) (e : JSError)
  | wait (ms : Nat)
deriving DecidableEq, Repr

/-- The options object of `withRetry`, with the source's defaults
(`maxAttempts = 3`, `delayMs = 1000`, `exponentialBackoff = false`,
`shouldRetry = () => true`).  `hasOnRetry` records whether the optional
`onRetry` callback is provided. -/
structure RetryOptions where
  maxAttempts : Nat := 3
  delayMs : Nat := 1000
  exponentialBackoff : Bool := false
  shouldRetry : JSError → Bool := fun _ => true
  hasOnRetry : Bool := false

/-- Result of a `withRetry` run: a value, or a thrown error.  `thrown none`
models the `throw lastError` with `lastError` still `undefined` (reachable
only when `maxAttempts = 0`, where the loop body never runs). -/
inductive RetryOutcome (α : Type) where
  | ok (v : α)
  | thrown (e : Option JSError)
deriving DecidableEq, Repr

/-- `lastError = error instanceof Error ? error : new Error(String(error))`:
an `Error` instance passes through unchanged (same object); a non-`Error`
value is wrapped in a freshly allocated `Error`.  `ctr` is the allocation
counter supplying fresh object references. -/
def normalizeThrown (t : Thrown) (ctr : Nat) : JSError × Nat :=
  match t with
  | Thrown.err e => (e, ctr)
  | Thrown.nonErr s => (⟨ctr, s⟩, ctr + 1)

/-- The `for (let attempt = 1; attempt <= maxAttempts; attempt++)` loop of
`withRetry`, as a recursion on the number of remaining iterations
(`remaining = maxAttempts + 1 - attempt` at every call).  Returns the
outcome, the event trace, and the final allocation counter.  The body
mirrors the source: try the operation; on failure normalize the thrown
value, throw it at once if `shouldRetry` refuses, otherwise report it to
`onRetry` (when provided) and, if this was not the last attempt, wait
`delayMs` (doubled per attempt under `exponentialBackoff`). -/
def retryGo (op : Nat → Except Thrown α) (opts : RetryOptions) :
    Option JSError → Nat → Nat → Nat → RetryOutcome α × List RetryEvent × Nat
  | lastE, ctr, _, 0 => (RetryOutcome.thrown lastE, [], ctr)
  | _, ctr, attempt, remaining + 1 =>
    match op attempt with
    | Except.ok v => (RetryOutcome.ok v, [RetryEvent.att attempt], ctr)
    | Except.error t =>
      let p := normalizeThrown t ctr
      if opts.shouldRetry p.1 then
        let retryEvts := if opts.hasOnRetry then [RetryEvent.onRetryCall attempt p.1] else []
        let waitEvts :=
          if attempt < opts.maxAttempts then
            [RetryEvent.wait
              (if opts.exponentialBackoff then opts.delayMs * 2 ^ (attempt - 1) else opts.delayMs)]
          else []
        let rest := retryGo op opts (some p.1) p.2 (attempt + 1) remaining
        (rest.1, RetryEvent.att attempt :: (retryEvts ++ waitEvts ++ rest.2.1), rest.2.2)
      else
        (RetryOutcome.thrown (some p.1), [RetryEvent.att attempt], p.2)

/-- `withRetry(operation, options)`: run the loop from attempt 1.  `ctr` is
the initial allocation counter (every `Error` object existing before the
call has `ref < ctr`). -/
def withRetry (op : Nat → Except Thrown α) (opts : RetryOptions) (ctr : Nat) :
    RetryOutcome α × List RetryEvent × Nat :=
  retryGo op opts none ctr 1 opts.maxAttempts

/-- Is the event an operation invocation? -/
def isAtt : RetryEvent → Bool
  | RetryEvent.att _ => true
  | _ => false

/-- Is the event a timer wait? -/
def isWait : RetryEvent → Bool
  | RetryEvent.wait _ => true
  | _ => false

/-- Number of operation invocations recorded in a trace. -/
def attemptsOf (tr : List RetryEvent) : Nat := (tr.filter isAtt).length

/-- Number of `onRetry` invocations recorded in a trace. -/
def onRetryCountOf (tr : List RetryEvent) : Nat :=
  (tr.filter fun ev =>
    match ev with
    | RetryEvent.onRetryCall _ _ => true
    | _ => false).length

/-- The waits of a trace, in order, as their durations in milliseconds. -/
def waitsOf (tr : List RetryEvent) : List Nat :=
  tr.filterMap fun ev =>
    match ev with
    | RetryEvent.wait d => some d
    | _ => none

/-- The segment of a trace strictly after its last operation invocation. -/
def tailAfterLastAtt (tr : List RetryEvent) : List RetryEvent :=
  (tr.reverse.takeWhile fun ev => ! isAtt ev).reverse

/-- The trace produced by a run in which every attempt fails (attempt `k`
throwing the `Error` instance `errs k`) and `shouldRetry` always allows a
retry. -/
def expectedFailTrace (opts : RetryOptions) (errs : Nat → JSError) :
    Nat → Nat → List RetryEvent
  | _, 0 => []
  | attempt, remaining + 1 =>
    RetryEvent.att attempt ::
      ((if opts.hasOnRetry then [RetryEvent.onRetryCall attempt (errs attempt)] else []) ++
       (if attempt < opts.maxAttempts then
          [RetryEvent.wait
            (if opts.exponentialBackoff then opts.delayMs * 2 ^ (attempt - 1) else opts.delayMs)]
        else []) ++
       expectedFailTrace opts errs (attempt + 1) remaining)

/- ## Error classifier (classifyError, src/src/utils/errorHandler.ts) -/

/-- JavaScript `String.prototype.toLowerCase` on the character fragment this
repository uses: ASCII upper-case letters and the Russian upper-case
letters (А-Я and Ё); every other character is unchanged. -/
def lowerChar (c : Char) : Char :=
  if 'A' ≤ c ∧ c ≤ 'Z' then Char.ofNat (c.toNat + 32)
  else if 'А' ≤ c ∧ c ≤ 'Я' then Char.ofNat (c.toNat + 32)
  else if c = 'Ё' then 'ё'
  else c

/-- Does the second list start with the first? -/
def leadsWith : List Char → List Char → Bool
  | [], _ => true
  | _ :: _, [] => false
  | a :: as, b :: bs => a == b && leadsWith as bs

/-- JavaScript `String.prototype.includes`: does `needle` occur as a
contiguous substring of the second argument? -/
def occursIn (needle : List Char) : List Char → Bool
  | [] => needle.isEmpty
  | c :: rest => leadsWith needle (c :: rest) || occursIn needle rest

/-- The `TestErrorType` enum of errorHandler.ts. -/
inductive TestErrorType where
  | ELEMENT_NOT_FOUND
  | TIMEOUT
  | NETWORK_ERROR
  | ASSERTION_FAILED
  | CLIPBOARD_ERROR
  | UNKNOWN
deriving DecidableEq, Repr

/-- Keyword of the timeout bucket. -/
def kwTimeout : List Char := "timeout".toList

/-- Keyword of the timeout bucket. -/
def kwExceeded : List Char := "exceeded".toList

/-- Keyword of the element-not-found bucket. -/
def kwNotFound : List Char := "not found".toList

/-- Keyword of the element-not-found bucket. -/
def kwNoElement : List Char := "no element".toList

/-- Keyword of the network bucket. -/
def kwNetwork : List Char := "network".toList

/-- Keyword of the network bucket. -/
def kwNetColon : List Char := "net::".toList

/-- Keyword of the assertion bucket. -/
def kwExpect : List Char := "expect".toList

/-- Keyword of the assertion bucket. -/
def kwAssertionWord : List Char := "assertion".toList

/-- Keyword of the clipboard bucket. -/
def kwClipboard : List Char := "clipboard".toList

/-- `classifyError(error)`: lower-case the message and test the keyword
buckets in the source's order (timeout → element-not-found → network →
assertion → clipboard → unknown). -/
def classifyError (msg : List Char) : TestErrorType :=
  let m := msg.map lowerChar
  if occursIn kwTimeout m || occursIn kwExceeded m then TestErrorType.TIMEOUT
  else if occursIn kwNotFound m || occursIn kwNoElement m then TestErrorType.ELEMENT_NOT_FOUND
  else if occursIn kwNetwork m || occursIn kwNetColon m then TestErrorType.NETWORK_ERROR
  else if occursIn kwExpect m || occursIn kwAssertionWord m then TestErrorType.ASSERTION_FAILED
  else if occursIn kwClipboard m then TestErrorType.CLIPBOARD_ERROR
  else TestErrorType.UNKNOWN

/-- The message matches a term of the timeout bucket (tested on the
lower-cased message). -/
def hasTimeoutTerm (msg : List Char) : Bool :=
  occursIn kwTimeout (msg.map lowerChar) || occursIn kwExceeded (msg.map lowerChar)

/-- The message matches a term of the element-not-found bucket. -/
def hasNotFoundTerm (msg : List Char) : Bool :=
  occursIn kwNotFound (msg.map lowerChar) || occursIn kwNoElement (msg.map lowerChar)

/-- The message matches a term of the network bucket. -/
def hasNetworkTerm (msg : List Char) : Bool :=
  occursIn kwNetwork (msg.map lowerChar) || occursIn kwNetColon (msg.map lowerChar)

/-- The message matches a term of the assertion bucket. -/
def hasAssertionTerm (msg : List Char) : Bool :=
  occursIn kwExpect (msg.map lowerChar) || occursIn kwAssertionWord (msg.map lowerChar)

/-- The message matches the term of the clipboard bucket. -/
def hasClipboardTerm (msg : List Char) : Bool :=
  occursIn kwClipboard (msg.map lowerChar)

/- ## Artifact namer (src/unnamed/part_008) -/

/-- The `charMap` object literal of `transliterate`: Cyrillic-to-Latin
transliteration entries plus whitespace/underscore normalization.  The hard
and soft signs map to the empty string. -/
def charMap : List (Char × List Char) :=
  [('а', ['a']), ('б', ['b']), ('в', ['v']), ('г', ['g']), ('д', ['d']),
   ('е', ['e']), ('ё', ['y', 'o']), ('ж', ['z', 'h']), ('з', ['z']),
   ('и', ['i']), ('й', ['y']), ('к', ['k']), ('л', ['l']), ('м', ['m']),
   ('н', ['n']), ('о', ['o']), ('п', ['p']), ('р', ['r']), ('с', ['s']),
   ('т', ['t']), ('у', ['u']), ('ф', ['f']), ('х', ['h']), ('ц', ['t', 's']),
   ('ч', ['c', 'h']), ('ш', ['s', 'h']), ('щ', ['s', 'c', 'h']), ('ъ', []),
   ('ы', ['y']), ('ь', []), ('э', ['e']), ('ю', ['y', 'u']), ('я', ['y', 'a']),
   (' ', ['-']), ('_', ['-'])]

/-- `charMap[char] || char`: the looked-up replacement, except that a missing
entry — or the empty string, which is falsy in JavaScript (hard/soft sign) —
falls back to the character itself. -/
def translitMapChar (c : Char) : List Char :=
  match List.lookup c charMap with
  | some s => if s.isEmpty then [c] else s
  | none => [c]

/-- A character kept by the `[^a-z0-9-]` deletion step. -/
def isSlugChar (c : Char) : Bool :=
  ('a' ≤ c && c ≤ 'z') || ('0' ≤ c && c ≤ '9') || c == '-'

/-- The hyphen-run collapsing replace step (pattern: one or more hyphens,
global; replacement: a single hyphen).  The
flag records whether the previous kept character was a hyphen. -/
def collapseHyphenRuns : Bool → List Char → List Char
  | _, [] => []
  | prevDash, c :: rest =>
    if c == '-' then
      if prevDash then collapseHyphenRuns true rest
      else '-' :: collapseHyphenRuns true rest
    else c :: collapseHyphenRuns false rest

/-- `replace(/^-|-$/g, '')`, leading part: remove one leading hyphen. -/
def dropLeadHyphen : List Char → List Char
  | '-' :: rest => rest
  | l => l

/-- `replace(/^-|-$/g, '')`, trailing part: remove one trailing hyphen. -/
def dropTrailHyphen (l : List Char) : List Char :=
  (dropLeadHyphen l.reverse).reverse

/-- `transliterate(text)`: lower-case, map every character through
`charMap` (falsy fallback to the character itself), delete everything
outside `[a-z0-9-]`, collapse hyphen runs, and strip a leading/trailing
hyphen. -/
def transliterate (text : List Char) : List Char :=
  dropTrailHyphen (dropLeadHyphen
    (collapseHyphenRuns false
      (((text.map lowerChar).flatMap translitMapChar).filter isSlugChar)))

/-- `[A-Z]` of the title regexes. -/
def isUpperAsciiChar (c : Char) : Bool := 'A' ≤ c && c ≤ 'Z'

/-- `\d` of the title regexes. -/
def isDigitCh (c : Char) : Bool := '0' ≤ c && c ≤ '9'

/-- JavaScript `\s`: space, the ASCII control whitespace, no-break space,
the Unicode space separators, the line separators, and the BOM. -/
def isJsSpace (c : Char) : Bool :=
  c == ' ' || ('\u0009' ≤ c && c ≤ '\u000D') || c == ' ' || c == ' ' ||
  (' ' ≤ c && c ≤ ' ') || c == ' ' || c == ' ' ||
  c == ' ' || c == ' ' || c == '　' || c == '﻿'

/-- A JavaScript line terminator, which `.` never matches. -/
def isLineTerm (c : Char) : Bool :=
  c == '\u000A' || c == '\u000D' || c == ' ' || c == ' '

/-- `extractTestId(testName)`: the leading `[A-Z]+-\d+` token of the title,
or the empty string when the title does not start with one. -/
def extractTestId (title : List Char) : List Char :=
  let ups := title.takeWhile isUpperAsciiChar
  if ups.isEmpty then []
  else
    match title.drop ups.length with
    | '-' :: rest =>
      let ds := rest.takeWhile isDigitCh
      if ds.isEmpty then [] else ups ++ '-' :: ds
    | _ => []

/-- The capture group of `title.match(/^[A-Z]+-\d+:\s*(.+)$/)`: the title
remainder after the id, colon and greedy whitespace.  `.` does not match a
line terminator, so a remainder containing one fails the match; when the
remainder is all whitespace, the greedy `\s*` backtracks by one character
provided that character is not a line terminator. -/
def matchDesc (title : List Char) : Option (List Char) :=
  let ups := title.takeWhile isUpperAsciiChar
  if ups.isEmpty then none
  else
    match title.drop ups.length with
    | '-' :: rest =>
      let ds := rest.takeWhile isDigitCh
      if ds.isEmpty then none
      else
        match rest.drop ds.length with
        | ':' :: rest2 =>
          let tail := rest2.drop (rest2.takeWhile isJsSpace).length
          if tail.isEmpty then
            match rest2.getLast? with
            | some c => if isLineTerm c then none else some [c]
            | none => none
          else if tail.any isLineTerm then none else some tail
        | _ => none
    | _ => none

/-- The string fed to `transliterate` for the description component of a
screenshot name: the regex capture when the title matches, else the whole
title, in both cases first truncated (`slice(0, 50)`) to 50 characters. -/
def descSource (title : List Char) : List Char :=
  match matchDesc title with
  | some d => d.take 50
  | none => title.take 50

/-- The description slug component of `generateScreenshotName`. -/
def slugOf (title : List Char) : List Char := transliterate (descSource title)

/-- Decimal digit as a character. -/
def digitChar (n : Nat) : Char := Char.ofNat (48 + n)

/-- Decimal rendering, most significant digit first (fuel-based). -/
def natToCharsAux : Nat → Nat → List Char
  | 0, _ => []
  | fuel + 1, n =>
    if n < 10 then [digitChar n]
    else natToCharsAux fuel (n / 10) ++ [digitChar (n % 10)]

/-- Decimal rendering of a natural number. -/
def natToChars (n : Nat) : List Char := natToCharsAux (n + 1) n

/-- Zero-pad to two digits (ISO date components). -/
def pad2 (n : Nat) : List Char :=
  if n < 10 then '0' :: natToChars n else natToChars n

/-- Zero-pad to three digits (ISO milliseconds). -/
def pad3 (n : Nat) : List Char :=
  if n < 10 then '0' :: '0' :: natToChars n
  else if n < 100 then '0' :: natToChars n
  else natToChars n

/-- Zero-pad to four digits (ISO year). -/
def pad4 (n : Nat) : List Char :=
  if n < 10 then '0' :: '0' :: '0' :: natToChars n
  else if n < 100 then '0' :: '0' :: natToChars n
  else if n < 1000 then '0' :: natToChars n
  else natToChars n

/-- A wall-clock reading, the only ambient input of the artifact namer. -/
structure TestClock where
  year : Nat
  month : Nat
  day : Nat
  hour : Nat
  minute : Nat
  second : Nat
  ms : Nat
deriving DecidableEq, Repr

/-- The part of `new Date().toISOString()` up to and including the seconds
field: `YYYY-MM-DDTHH:MM:SS`. -/
def secPrefix (t : TestClock) : List Char :=
  pad4 t.year ++ '-' :: (pad2 t.month ++ '-' :: (pad2 t.day ++ 'T' ::
    (pad2 t.hour ++ ':' :: (pad2 t.minute ++ ':' :: pad2 t.second))))

/-- `new Date().toISOString()`: the seconds prefix followed by the
millisecond field and the `Z` suffix. -/
def isoString (t : TestClock) : List Char :=
  secPrefix t ++ '.' :: (pad3 t.ms ++ ['Z'])

/-- The `replace(/[:.]/g, '-')` step of `formatTimestamp`. -/
def replColonDot (c : Char) : Char :=
  if c = ':' ∨ c = '.' then '-' else c

/-- `replace('T', '_')` with a string pattern replaces only the first
occurrence. -/
def replaceFirstT : List Char → List Char
  | [] => []
  | c :: rest => if c = 'T' then '_' :: rest else c :: replaceFirstT rest

/-- `formatTimestamp()`: ISO string, `[:.]` to hyphens, `T` to underscore,
truncated to 19 characters (second resolution, filesystem safe). -/
def formatTimestamp (t : TestClock) : List Char :=
  (replaceFirstT ((isoString t).map replColonDot)).take 19

/-- Ambient test metadata consumed by the namer: title, source file path,
project (browser) name — the empty list models a missing/empty name, which
is falsy — and the project's configured viewport, if any. -/
structure TestMeta where
  title : List Char
  filePath : List Char
  projectName : List Char
  viewport : Option (Nat × Nat)

/-- Category id strings of `TEST_CATEGORIES`, and the path fragments and
title tags `detectCategory` looks for. -/
def catSmoke : List Char := "smoke".toList

/-- Category id `functional`. -/
def catFunctional : List Char := "functional".toList

/-- Category id `visual`. -/
def catVisual : List Char := "visual".toList

/-- Category id `accessibility`. -/
def catAccessibility : List Char := "accessibility".toList

/-- Fallback category id. -/
def catOther : List Char := "other".toList

/-- Path fragment for smoke tests. -/
def fragSmoke : List Char := "/smoke/".toList

/-- Path fragment for functional tests. -/
def fragFunctional : List Char := "/functional/".toList

/-- Path fragment for visual tests. -/
def fragVisual : List Char := "/visual/".toList

/-- Path fragment for accessibility tests. -/
def fragAccessibility : List Char := "/accessibility/".toList

/-- Title tag for smoke tests. -/
def tagSmoke : List Char := "@smoke".toList

/-- Title tag for functional tests. -/
def tagFunctional : List Char := "@functional".toList

/-- Title tag for visual tests. -/
def tagVisual : List Char := "@visual".toList

/-- Title tag for accessibility tests. -/
def tagAccessibility : List Char := "@accessibility".toList

/-- Short title tag for accessibility tests. -/
def tagA11y : List Char := "@a11y".toList

/-- `detectCategory(testInfo)`: match the file path against the category
directories, then the lower-cased title against the category tags, else
`other`. -/
def detectCategory (meta : TestMeta) : List Char :=
  if occursIn fragSmoke meta.filePath then catSmoke
  else if occursIn fragFunctional meta.filePath then catFunctional
  else if occursIn fragVisual meta.filePath then catVisual
  else if occursIn fragAccessibility meta.filePath then catAccessibility
  else
    let t := meta.title.map lowerChar
    if occursIn tagSmoke t then catSmoke
    else if occursIn tagFunctional t then catFunctional
    else if occursIn tagVisual t then catVisual
    else if occursIn tagAccessibility t || occursIn tagA11y t then catAccessibility
    else catOther

/-- The word `mobile`. -/
def strMobile : List Char := "mobile".toList

/-- The word `desktop`. -/
def strDesktop : List Char := "desktop".toList

/-- The word `unknown`. -/
def strUnknown : List Char := "unknown".toList

/-- The placeholder test id `TEST`. -/
def strTEST : List Char := "TEST".toList

/-- The `.png` extension. -/
def strPngExt : List Char := ".png".toList

/-- `getViewportInfo(testInfo)`: `WxH` from the configured viewport, else
`mobile` when the project name contains it, else `desktop`. -/
def getViewportInfo (meta : TestMeta) : List Char :=
  match meta.viewport with
  | some (w, h) => natToChars w ++ 'x' :: natToChars h
  | none => if occursIn strMobile meta.projectName then strMobile else strDesktop

/-- The `ScreenshotType` enum of part_008. -/
inductive ScreenshotType where
  | FAILURE
  | STEP
  | COMPARISON
  | FULL_PAGE
  | ELEMENT
deriving DecidableEq, Repr

/-- The (Russian) string value of each `ScreenshotType` member. -/
def screenshotTypeStr : ScreenshotType → List Char
  | ScreenshotType.FAILURE => "ошибка".toList
  | ScreenshotType.STEP => "шаг".toList
  | ScreenshotType.COMPARISON => "сравнение".toList
  | ScreenshotType.FULL_PAGE => "полная-страница".toList
  | ScreenshotType.ELEMENT => "элемент".toList

/-- `generateScreenshotName(testInfo, type, stepDescription)`:
`category/browser/{testId}_{slug}[_{step}]_{viewport}_{type}_{timestamp}.png`.
The empty `stepDescription` is falsy and contributes nothing; the wall
clock is the explicit `clock` argument. -/
def generateScreenshotName (meta : TestMeta) (ty : ScreenshotType)
    (stepDescription : List Char) (clock : TestClock) : List Char :=
  let category := detectCategory meta
  let browser := if meta.projectName.isEmpty then strUnknown else meta.projectName
  let testId := if (extractTestId meta.title).isEmpty then strTEST else extractTestId meta.title
  let viewport := getViewportInfo meta
  let timestamp := formatTimestamp clock
  let description := slugOf meta.title
  let stepPart := if stepDescription.isEmpty then [] else '_' :: transliterate stepDescription
  let fileName := testId ++ '_' :: (description ++ stepPart ++ '_' :: (viewport ++ '_' ::
    (screenshotTypeStr ty ++ '_' :: (timestamp ++ strPngExt))))
  category ++ '/' :: (browser ++ '/' :: fileName)

/- ## Clipboard fallback chain (copyToClipboard, src/src/utils/helpers.ts) -/

/-- Outcomes of the browser primitives `copyToClipboard` calls: whether
`context.grantPermissions` resolves, whether the strategy-1
`navigator.clipboard.writeText` evaluation resolves, whether the strategy-2
`page.evaluate` can run its callback at all (page alive), and the return
value of `document.execCommand('copy')` — which the source ignores. -/
structure ClipboardEnv where
  grantPermissionsOk : Bool
  nativeWriteOk : Bool
  fallbackEvaluateRuns : Bool
  execCommandResult : Bool
deriving DecidableEq, Repr

/-- The page DOM, reduced to what the fallback touches: how many temporary
textarea elements are attached to the body. -/
structure DomState where
  tempTextareas : Nat
deriving DecidableEq, Repr

/-- Observables of one `copyToClipboard` call: whether strategy 2 was
invoked and how many DOM elements it appended. -/
structure ClipboardTrace where
  strategy2Attempted : Bool
  elementsAppended : Nat
deriving DecidableEq, Repr

/-- Strategy 1: grant clipboard permissions, then evaluate
`navigator.clipboard.writeText`; either step may reject. -/
def strategy1 (env : ClipboardEnv) : Except Unit Unit :=
  if env.grantPermissionsOk then
    if env.nativeWriteOk then Except.ok () else Except.error ()
  else Except.error ()

/-- Strategy 2: when the evaluation can run, the callback creates a
textarea, appends it, selects it, runs `execCommand('copy')` (return value
ignored) and removes it again — net DOM change zero; when the evaluation
cannot run, the callback never executes and the DOM is untouched. -/
def strategy2 (env : ClipboardEnv) (dom : DomState) : Except Unit Unit × DomState :=
  if env.fallbackEvaluateRuns then
    let domAppended : DomState := ⟨dom.tempTextareas + 1⟩
    let _ := env.execCommandResult
    let domRemoved : DomState := ⟨domAppended.tempTextareas - 1⟩
    (Except.ok (), domRemoved)
  else (Except.error (), dom)

/-- `copyToClipboard(page, context, text)`: try strategy 1; on any failure
catch and fall back to strategy 2; on its failure catch and return false.
Every internal rejection is caught, so the function always returns a
boolean. -/
def copyToClipboard (env : ClipboardEnv) (dom : DomState) :
    Bool × DomState × ClipboardTrace :=
  match strategy1 env with
  | Except.ok _ => (true, dom, ⟨false, 0⟩)
  | Except.error _ =>
    match strategy2 env dom with
    | (Except.ok _, dom') => (true, dom', ⟨true, 1⟩)
    | (Except.error _, dom') => (false, dom', ⟨true, 0⟩)

/- ## Concrete instances used by counterexamples and witnesses -/

/-- An operation that fails on every attempt with the same `Error`. -/
def opAlwaysFailErr : Nat → Except Thrown Unit :=
  fun _ => Except.error (Thrown.err ⟨5, ['b', 'o', 'o', 'm']⟩)

/-- Options: one attempt, `onRetry` provided, default `shouldRetry`. -/
def optsOneAttemptOnRetry : RetryOptions :=
  { maxAttempts := 1, delayMs := 1000, exponentialBackoff := false,
    shouldRetry := fun _ => true, hasOnRetry := true }

/-- A 50-character Cyrillic title: fifty copies of the letter щ. -/
def titleShcha : List Char := List.replicate 50 'щ'

/-- The constant error family thrown by `opAlwaysFailErr`. -/
def errsBoom : Nat → JSError := fun _ => ⟨5, ['b', 'o', 'o', 'm']⟩

/-- The default options object (all fields defaulted as in the source). -/
def optsDefaults : RetryOptions := {}

/-- Options whose `shouldRetry` predicate always refuses. -/
def optsNoRetry : RetryOptions := { shouldRetry := fun _ => false }

/-- An operation that fails on every attempt by throwing the non-`Error`
string value `oops`. -/
def opAlwaysFailStr : Nat → Except Thrown Unit :=
  fun _ => Except.error (Thrown.nonErr ['o', 'o', 'p', 's'])

/-- Sample metadata for the determinism witness. -/
def metaSample : TestMeta :=
  { title := "SMOKE-01: проверка загрузки".toList,
    filePath := "tests/smoke/widget.spec.ts".toList,
    projectName := "chromium".toList,
    viewport := some (1920, 1080) }

/-- A clock reading at one millisecond past a given second. -/
def clockEarlyMs : TestClock := ⟨2024, 1, 15, 10, 30, 0, 1⟩

/-- A clock reading late in the same second as `clockEarlyMs`. -/
def clockLateMs : TestClock := ⟨2024, 1, 15, 10, 30, 0, 999⟩

/-- A clipboard environment in which both strategies fail. -/
def envBothFail : ClipboardEnv := ⟨false, false, false, true⟩

/-- A DOM with no stray temporary textarea. -/
def domClean : DomState := ⟨0⟩

theorem takeWhile_append_of_all {α} (p : α → Bool) :
    ∀ l₁ l₂ : List α, (∀ x ∈ l₁, p x = true) → (l₁ ++ l₂).takeWhile p = l₁ ++ l₂.takeWhile p := by
  intro l₁
  induction l₁ with
  | nil => intro l₂ _; rfl
  | cons a t ih =>
    intro l₂ h
    have ha : p a = true := h a (by simp)
    simp only [List.cons_append, List.takeWhile_cons, ha, if_true]
    rw [ih l₂ (fun x hx => h x (by simp [hx]))]

theorem tailAfterLastAtt_append (pre tail : List RetryEvent) (k : Nat)
    (h : ∀ x ∈ tail, isAtt x = false) :
    tailAfterLastAtt (pre ++ RetryEvent.att k :: tail) = tail := by
  unfold tailAfterLastAtt
  rw [List.reverse_append, List.reverse_cons]
  rw [List.append_assoc]
  rw [takeWhile_append_of_all _ tail.reverse _
    (fun x hx => by simp [h x (List.mem_reverse.mp hx)])]
  simp [List.takeWhile_cons, isAtt]

theorem retryGo_allFail (op : Nat → Except Thrown α) (opts : RetryOptions) (errs : Nat → JSError)
    (hsr : ∀ e, opts.shouldRetry e = true) :
    ∀ remaining attempt lastE ctr, 1 ≤ remaining →
      attempt + remaining = opts.maxAttempts + 1 →
      (∀ k, attempt ≤ k → k ≤ opts.maxAttempts → op k = Except.error (Thrown.err (errs k))) →
      retryGo op opts lastE ctr attempt remaining =
        (RetryOutcome.thrown (some (errs opts.maxAttempts)),
         expectedFailTrace opts errs attempt remaining, ctr) := by
  intro remaining
  induction remaining with
  | zero => intro attempt lastE ctr h1 _ _; omega
  | succ r ih =>
    intro attempt lastE ctr _ h2 hop
    have ha : attempt ≤ opts.maxAttempts := by omega
    simp only [retryGo, expectedFailTrace]
    rw [hop attempt le_rfl ha]
    simp only [normalizeThrown, hsr, if_true]
    rcases Nat.eq_zero_or_pos r with hr | hr
    · subst hr
      have haM : attempt = opts.maxAttempts := by omega
      simp only [retryGo, expectedFailTrace, haM]
    · rw [ih (attempt + 1) (some (errs attempt)) ctr hr (by omega)
        (fun k hk1 hk2 => hop k (by omega) hk2)]

theorem attemptsOf_expectedFailTrace (opts : RetryOptions) (errs : Nat → JSError) :
    ∀ r a, attemptsOf (expectedFailTrace opts errs a r) = r := by
  intro r
  induction r with
  | zero => intro a; rfl
  | succ r ih =>
    intro a
    have ihr := ih (a + 1)
    simp only [attemptsOf] at ihr ⊢
    simp only [expectedFailTrace, List.filter_cons, List.filter_append]
    cases hOn : opts.hasOnRetry <;> by_cases hlt : a < opts.maxAttempts <;>
      simp [isAtt, hlt, ihr, Nat.add_comm]

theorem onRetryCountOf_expectedFailTrace (opts : RetryOptions) (errs : Nat → JSError)
    (hOn : opts.hasOnRetry = true) :
    ∀ r a, onRetryCountOf (expectedFailTrace opts errs a r) = r := by
  intro r
  induction r with
  | zero => intro a; rfl
  | succ r ih =>
    intro a
    have ihr := ih (a + 1)
    simp only [onRetryCountOf] at ihr ⊢
    simp only [expectedFailTrace, List.filter_cons, List.filter_append, hOn]
    by_cases hlt : a < opts.maxAttempts <;> simp [hlt, ihr, Nat.add_comm]

theorem waitsOf_expectedFailTrace (opts : RetryOptions) (errs : Nat → JSError) :
    ∀ r a, a + r = opts.maxAttempts + 1 →
      waitsOf (expectedFailTrace opts errs a r) =
        (List.range' a (r - 1)).map
          (fun k => if opts.exponentialBackoff then opts.delayMs * 2 ^ (k - 1) else opts.delayMs) := by
  intro r
  induction r with
  | zero => intro a _; rfl
  | succ r ih =>
    intro a hinv
    simp only [waitsOf] at ih ⊢
    simp only [expectedFailTrace, List.filterMap_cons, List.filterMap_append]
    cases r with
    | zero =>
      have haM : ¬ a < opts.maxAttempts := by omega
      simp [haM, expectedFailTrace]
    | succ m =>
      have haM : a < opts.maxAttempts := by omega
      have ihr := ih (a + 1) (by omega)
      simp only [Nat.succ_sub_one] at ihr ⊢
      rw [List.range'_succ]
      cases hOn : opts.hasOnRetry <;> simp [haM, hOn, ihr]

theorem expectedFailTrace_split (opts : RetryOptions) (errs : Nat → JSError) :
    ∀ r a, 1 ≤ r → a + r = opts.maxAttempts + 1 →
      ∃ pre, expectedFailTrace opts errs a r =
        pre ++ RetryEvent.att opts.maxAttempts ::
          (if opts.hasOnRetry then
            [RetryEvent.onRetryCall opts.maxAttempts (errs opts.maxAttempts)]
          else []) := by
  intro r
  induction r with
  | zero => intro a h1 _; omega
  | succ r ih =>
    intro a _ hinv
    cases r with
    | zero =>
      have haM : a = opts.maxAttempts := by omega
      refine ⟨[], ?_⟩
      subst haM
      simp [expectedFailTrace, Nat.lt_irrefl]
    | succ m =>
      obtain ⟨pre', hpre'⟩ := ih (a + 1) (by omega) (by omega)
      have haM : a < opts.maxAttempts := by omega
      refine ⟨RetryEvent.att a ::
        ((if opts.hasOnRetry then [RetryEvent.onRetryCall a (errs a)] else []) ++
         [RetryEvent.wait
           (if opts.exponentialBackoff then opts.delayMs * 2 ^ (a - 1) else opts.delayMs)] ++
         pre'), ?_⟩
      have hstep : expectedFailTrace opts errs a (m + 1 + 1) =
          RetryEvent.att a ::
            ((if opts.hasOnRetry then [RetryEvent.onRetryCall a (errs a)] else []) ++
             (if a < opts.maxAttempts then
                [RetryEvent.wait
                  (if opts.exponentialBackoff then opts.delayMs * 2 ^ (a - 1) else opts.delayMs)]
              else []) ++
             expectedFailTrace opts errs (a + 1) (m + 1)) := rfl
      rw [hstep, hpre', if_pos haM]
      simp [List.append_assoc]

theorem retryGo_allFailNonErr (op : Nat → Except Thrown α) (opts : RetryOptions) (s : List Char)
    (hsr : ∀ e, opts.shouldRetry e = true) :
    ∀ r a lastE ctr, 1 ≤ r → a + r = opts.maxAttempts + 1 →
      (∀ k, a ≤ k → k ≤ opts.maxAttempts → op k = Except.error (Thrown.nonErr s)) →
      (retryGo op opts lastE ctr a r).1 = RetryOutcome.thrown (some ⟨ctr + r - 1, s⟩) := by
  intro r
  induction r with
  | zero => intro a lastE ctr h1 _ _; omega
  | succ r ih =>
    intro a lastE ctr _ hinv hop
    have ha : a ≤ opts.maxAttempts := by omega
    simp only [retryGo]
    rw [hop a le_rfl ha]
    simp only [normalizeThrown, hsr, if_true]
    rcases Nat.eq_zero_or_pos r with hr | hr
    · subst hr
      simp [retryGo]
    · have harith : ctr + (r + 1) - 1 = ctr + 1 + r - 1 := by omega
      rw [harith]
      exact ih (a + 1) (some ⟨ctr, s⟩) (ctr + 1) hr (by omega)
        (fun k h1 h2 => hop k (by omega) h2)

/-- Claim C1: for every `maxAttempts = n ≥ 1` and every operation that fails
on all attempts (with `shouldRetry` permitting retries, as by default),
`withRetry` invokes the operation exactly `n` times and then fails with the
last error observed from the operation — the very `Error` object attempt
`n` threw, never a synthetic max-attempts-exceeded error. -/
theorem withRetry_exhaustsAttempts_failsWithLastError
    (op : Nat → Except Thrown α) (opts : RetryOptions) (errs : Nat → JSError)
    (n ctr : Nat) (hn : 1 ≤ n) (hmax : opts.maxAttempts = n)
    (hsr : ∀ e, opts.shouldRetry e = true)
    (hop : ∀ k, 1 ≤ k → k ≤ n → op k = Except.error (Thrown.err (errs k))) :
    attemptsOf (withRetry op opts ctr).2.1 = n ∧
    (withRetry op opts ctr).1 = RetryOutcome.thrown (some (errs n)) := by
  have h := retryGo_allFail op opts errs hsr opts.maxAttempts 1 none ctr
    (by omega) (by omega) (fun k hk1 hk2 => hop k hk1 (by omega))
  have h21 : (withRetry op opts ctr).2.1 = expectedFailTrace opts errs 1 opts.maxAttempts := by
    unfold withRetry
    rw [h]
  have h1 : (withRetry op opts ctr).1 = RetryOutcome.thrown (some (errs opts.maxAttempts)) := by
    unfold withRetry
    rw [h]
  constructor
  · rw [h21, attemptsOf_expectedFailTrace opts errs opts.maxAttempts 1, hmax]
  · rw [h1, hmax]

/-- Witness for C1: the always-failing operation under the default options
(three attempts) is attempted three times and the third attempt's error is
rethrown. -/
theorem withRetry_exhaustsAttempts_failsWithLastError_witness :
    attemptsOf (withRetry opAlwaysFailErr optsDefaults 0).2.1 = 3 ∧
    (withRetry opAlwaysFailErr optsDefaults 0).1 =
      RetryOutcome.thrown (some ⟨5, ['b', 'o', 'o', 'm']⟩) :=
  withRetry_exhaustsAttempts_failsWithLastError opAlwaysFailErr optsDefaults errsBoom 3 0
    (by decide) rfl (fun _ => rfl) (fun _ _ _ => rfl)

/-- Claim C2: if the first attempt fails with an `Error` that `shouldRetry`
rejects, `withRetry` performs exactly one attempt and fails with that same
`Error` object (identity preserved — the model value, including its heap
reference, flows through unchanged), with no `onRetry` invocation and no
wait: the whole trace is the single invocation event. -/
theorem withRetry_shouldRetryFalse_singleAttempt
    (op : Nat → Except Thrown α) (opts : RetryOptions) (e : JSError) (ctr : Nat)
    (hmax : 1 ≤ opts.maxAttempts)
    (hop : op 1 = Except.error (Thrown.err e))
    (hsr : opts.shouldRetry e = false) :
    withRetry op opts ctr = (RetryOutcome.thrown (some e), [RetryEvent.att 1], ctr) := by
  unfold withRetry
  obtain ⟨m, hm⟩ : ∃ m, opts.maxAttempts = m + 1 := ⟨opts.maxAttempts - 1, by omega⟩
  rw [hm]
  simp only [retryGo]
  rw [hop]
  simp [normalizeThrown, hsr]

/-- Witness for C2: under a `shouldRetry` that always refuses, the failing
operation is attempted once and its own error is rethrown at once. -/
theorem withRetry_shouldRetryFalse_singleAttempt_witness :
    withRetry opAlwaysFailErr optsNoRetry 0 =
      (RetryOutcome.thrown (some ⟨5, ['b', 'o', 'o', 'm']⟩), [RetryEvent.att 1], 0) :=
  withRetry_shouldRetryFalse_singleAttempt opAlwaysFailErr optsNoRetry
    ⟨5, ['b', 'o', 'o', 'm']⟩ 0 (by decide) rfl rfl

/-- Claim C3: with `delayMs = d`, the waits of an exhausting run are, in
order, exactly one wait between attempt `k` and attempt `k + 1` for
`k = 1 … n-1`, of `d * 2 ^ (k - 1)` milliseconds under
`exponentialBackoff` and `d` otherwise; no event (in particular no wait)
precedes the first attempt, and no wait follows the final attempt. -/
theorem withRetry_waitSchedule
    (op : Nat → Except Thrown α) (opts : RetryOptions) (errs : Nat → JSError)
    (n d ctr : Nat) (hn : 1 ≤ n) (hmax : opts.maxAttempts = n) (hd : opts.delayMs = d)
    (hsr : ∀ e, opts.shouldRetry e = true)
    (hop : ∀ k, 1 ≤ k → k ≤ n → op k = Except.error (Thrown.err (errs k))) :
    waitsOf (withRetry op opts ctr).2.1 =
      (List.range' 1 (n - 1)).map
        (fun k => if opts.exponentialBackoff then d * 2 ^ (k - 1) else d) ∧
    ((withRetry op opts ctr).2.1).head? = some (RetryEvent.att 1) ∧
    (tailAfterLastAtt (withRetry op opts ctr).2.1).all (fun ev => ! isWait ev) = true := by
  have h := retryGo_allFail op opts errs hsr opts.maxAttempts 1 none ctr
    (by omega) (by omega) (fun k hk1 hk2 => hop k hk1 (by omega))
  have h21 : (withRetry op opts ctr).2.1 = expectedFailTrace opts errs 1 opts.maxAttempts := by
    unfold withRetry
    rw [h]
  refine ⟨?_, ?_, ?_⟩
  · rw [h21, waitsOf_expectedFailTrace opts errs opts.maxAttempts 1 (by omega), hmax, hd]
  · rw [h21]
    obtain ⟨m, hm⟩ : ∃ m, opts.maxAttempts = m + 1 := ⟨opts.maxAttempts - 1, by omega⟩
    rw [hm]
    simp [expectedFailTrace]
  · obtain ⟨pre, hpre⟩ :=
      expectedFailTrace_split opts errs opts.maxAttempts 1 (by omega) (by omega)
    rw [h21, hpre, tailAfterLastAtt_append]
    · cases hOn : opts.hasOnRetry <;> simp [isWait]
    · intro x hx
      cases hOn : opts.hasOnRetry <;> simp [hOn] at hx
      rw [hx]
      rfl

/-- Witness for C3: an exhausting default-options run (three attempts,
`delayMs = 1000`, no backoff) waits 1000 ms twice, opens with the first
attempt, and ends with no wait after the last attempt. -/
theorem withRetry_waitSchedule_witness :
    waitsOf (withRetry opAlwaysFailErr optsDefaults 0).2.1 =
      (List.range' 1 2).map
        (fun k => if optsDefaults.exponentialBackoff then 1000 * 2 ^ (k - 1) else 1000) ∧
    ((withRetry opAlwaysFailErr optsDefaults 0).2.1).head? = some (RetryEvent.att 1) ∧
    (tailAfterLastAtt (withRetry opAlwaysFailErr optsDefaults 0).2.1).all
      (fun ev => ! isWait ev) = true :=
  withRetry_waitSchedule opAlwaysFailErr optsDefaults errsBoom 3 1000 0
    (by decide) rfl rfl (fun _ => rfl) (fun _ _ _ => rfl)

/-- Counterexample to C4 as stated: with `maxAttempts = 1` and an operation
failing on its (only) attempt, the claim predicts `n - 1 = 0` `onRetry`
invocations and none after the final attempt; the code invokes `onRetry`
once — after the final attempt, which is followed by no wait. -/
theorem onRetry_after_final_attempt_cex :
    onRetryCountOf (withRetry opAlwaysFailErr optsOneAttemptOnRetry 0).2.1 ≠
      optsOneAttemptOnRetry.maxAttempts - 1 := by
  decide

/-- Claim C4 (amended): `onRetry(attemptNumber, error)`, when provided, is
invoked once after every failed attempt that `shouldRetry` allows —
immediately before the inter-attempt wait for attempts `1 … n-1`, and once
more after the final failed attempt (which is followed by no wait).  For an
operation failing on all `n` attempts it is therefore invoked exactly `n`
times, the last invocation sitting after the final attempt in the trace. -/
theorem withRetry_onRetryPerFailedAttempt
    (op : Nat → Except Thrown α) (opts : RetryOptions) (errs : Nat → JSError)
    (n ctr : Nat) (hn : 1 ≤ n) (hmax : opts.maxAttempts = n)
    (hOn : opts.hasOnRetry = true)
    (hsr : ∀ e, opts.shouldRetry e = true)
    (hop : ∀ k, 1 ≤ k → k ≤ n → op k = Except.error (Thrown.err (errs k))) :
    onRetryCountOf (withRetry op opts ctr).2.1 = n ∧
    tailAfterLastAtt (withRetry op opts ctr).2.1 = [RetryEvent.onRetryCall n (errs n)] := by
  have h := retryGo_allFail op opts errs hsr opts.maxAttempts 1 none ctr
    (by omega) (by omega) (fun k hk1 hk2 => hop k hk1 (by omega))
  have h21 : (withRetry op opts ctr).2.1 = expectedFailTrace opts errs 1 opts.maxAttempts := by
    unfold withRetry
    rw [h]
  constructor
  · rw [h21, onRetryCountOf_expectedFailTrace opts errs hOn opts.maxAttempts 1, hmax]
  · obtain ⟨pre, hpre⟩ :=
      expectedFailTrace_split opts errs opts.maxAttempts 1 (by omega) (by omega)
    rw [h21, hpre, hOn, if_pos rfl, tailAfterLastAtt_append, hmax]
    intro x hx
    simp at hx
    rw [hx]
    rfl

/-- Witness for the amended C4: one attempt, one failure, one `onRetry`
call, sitting after the final (only) attempt. -/
theorem withRetry_onRetryPerFailedAttempt_witness :
    onRetryCountOf (withRetry opAlwaysFailErr optsOneAttemptOnRetry 0).2.1 = 1 ∧
    tailAfterLastAtt (withRetry opAlwaysFailErr optsOneAttemptOnRetry 0).2.1 =
      [RetryEvent.onRetryCall 1 ⟨5, ['b', 'o', 'o', 'm']⟩] :=
  withRetry_onRetryPerFailedAttempt opAlwaysFailErr optsOneAttemptOnRetry errsBoom 1 0
    (by decide) rfl rfl (fun _ => rfl) (fun _ _ _ => rfl)

/-- Claim C10: when the operation fails on every attempt by throwing a
non-`Error` value `v`, `withRetry` does not re-raise `v` itself: it fails
with a freshly constructed `Error` (its reference is at or above the
allocation watermark `ctr`, so it is distinct from every object existing
before the call) whose message is the string conversion of `v`. -/
theorem withRetry_nonError_wrappedFresh
    (op : Nat → Except Thrown α) (opts : RetryOptions) (s : List Char)
    (n ctr : Nat) (hn : 1 ≤ n) (hmax : opts.maxAttempts = n)
    (hsr : ∀ e, opts.shouldRetry e = true)
    (hop : ∀ k, 1 ≤ k → k ≤ n → op k = Except.error (Thrown.nonErr s)) :
    (withRetry op opts ctr).1 = RetryOutcome.thrown (some ⟨ctr + n - 1, s⟩) ∧
    ∀ e : JSError, e.ref < ctr →
      (withRetry op opts ctr).1 ≠ RetryOutcome.thrown (some e) := by
  have h := retryGo_allFailNonErr op opts s hsr opts.maxAttempts 1 none ctr
    (by omega) (by omega) (fun k hk1 hk2 => hop k hk1 (by omega))
  have h1 : (withRetry op opts ctr).1 =
      RetryOutcome.thrown (some ⟨ctr + n - 1, s⟩) := by
    unfold withRetry
    rw [h, hmax]
  refine ⟨h1, ?_⟩
  intro e he heq
  rw [h1] at heq
  simp only [RetryOutcome.thrown.injEq, Option.some.injEq] at heq
  rw [← heq] at he
  simp only at he
  omega

/-- Witness for C10: an operation that always throws the string `oops`
surfaces, after the default three attempts, a constructed `Error` with
message `oops` and a reference fresh over the watermark 7. -/
theorem withRetry_nonError_wrappedFresh_witness :
    (withRetry opAlwaysFailStr optsDefaults 7).1 =
      RetryOutcome.thrown (some ⟨9, ['o', 'o', 'p', 's']⟩) ∧
    ∀ e : JSError, e.ref < 7 →
      (withRetry opAlwaysFailStr optsDefaults 7).1 ≠ RetryOutcome.thrown (some e) :=
  withRetry_nonError_wrappedFresh opAlwaysFailStr optsDefaults ['o', 'o', 'p', 's'] 3 7
    (by decide) rfl (fun _ => rfl) (fun _ _ _ => rfl)

/-- Claim C5: `classifyError` is total (a total function by construction),
lower-cases the message, and tests the keyword buckets in the fixed
priority order Timeout → ElementNotFound → NetworkError → AssertionFailed
→ ClipboardError → else Unknown: any message matching a timeout term is
Timeout even when it also matches later buckets, and each later bucket
applies exactly when all earlier ones fail; the spec's three examples
evaluate as stated. -/
theorem classifyError_priority_and_examples :
    classifyError ("Timeout 30000ms exceeded".toList) = TestErrorType.TIMEOUT ∧
    classifyError ("element not found".toList) = TestErrorType.ELEMENT_NOT_FOUND ∧
    classifyError ("random failure".toList) = TestErrorType.UNKNOWN ∧
    classifyError ("timeout while writing to clipboard".toList) = TestErrorType.TIMEOUT ∧
    (∀ msg, hasTimeoutTerm msg = true → classifyError msg = TestErrorType.TIMEOUT) ∧
    (∀ msg, hasTimeoutTerm msg = false → hasNotFoundTerm msg = true →
      classifyError msg = TestErrorType.ELEMENT_NOT_FOUND) ∧
    (∀ msg, hasTimeoutTerm msg = false → hasNotFoundTerm msg = false →
      hasNetworkTerm msg = true → classifyError msg = TestErrorType.NETWORK_ERROR) ∧
    (∀ msg, hasTimeoutTerm msg = false → hasNotFoundTerm msg = false →
      hasNetworkTerm msg = false → hasAssertionTerm msg = true →
      classifyError msg = TestErrorType.ASSERTION_FAILED) ∧
    (∀ msg, hasTimeoutTerm msg = false → hasNotFoundTerm msg = false →
      hasNetworkTerm msg = false → hasAssertionTerm msg = false →
      hasClipboardTerm msg = true → classifyError msg = TestErrorType.CLIPBOARD_ERROR) ∧
    (∀ msg, hasTimeoutTerm msg = false → hasNotFoundTerm msg = false →
      hasNetworkTerm msg = false → hasAssertionTerm msg = false →
      hasClipboardTerm msg = false → classifyError msg = TestErrorType.UNKNOWN) := by
  refine ⟨by decide, by decide, by decide, by decide, ?_, ?_, ?_, ?_, ?_, ?_⟩
  · intro msg h1
    unfold hasTimeoutTerm at h1
    simp only [classifyError]
    rw [h1]
    simp
  · intro msg h1 h2
    unfold hasTimeoutTerm at h1
    unfold hasNotFoundTerm at h2
    simp only [classifyError]
    rw [h1, h2]
    simp
  · intro msg h1 h2 h3
    unfold hasTimeoutTerm at h1
    unfold hasNotFoundTerm at h2
    unfold hasNetworkTerm at h3
    simp only [classifyError]
    rw [h1, h2, h3]
    simp
  · intro msg h1 h2 h3 h4
    unfold hasTimeoutTerm at h1
    unfold hasNotFoundTerm at h2
    unfold hasNetworkTerm at h3
    unfold hasAssertionTerm at h4
    simp only [classifyError]
    rw [h1, h2, h3, h4]
    simp
  · intro msg h1 h2 h3 h4 h5
    unfold hasTimeoutTerm at h1
    unfold hasNotFoundTerm at h2
    unfold hasNetworkTerm at h3
    unfold hasAssertionTerm at h4
    unfold hasClipboardTerm at h5
    simp only [classifyError]
    rw [h1, h2, h3, h4, h5]
    simp
  · intro msg h1 h2 h3 h4 h5
    unfold hasTimeoutTerm at h1
    unfold hasNotFoundTerm at h2
    unfold hasNetworkTerm at h3
    unfold hasAssertionTerm at h4
    unfold hasClipboardTerm at h5
    simp only [classifyError]
    rw [h1, h2, h3, h4, h5]
    simp

/-- Witness for C5: a message matching no bucket classifies as Unknown via
the priority chain. -/
theorem classifyError_priority_and_examples_witness :
    classifyError ("widget exploded".toList) = TestErrorType.UNKNOWN :=
  classifyError_priority_and_examples.2.2.2.2.2.2.2.2.2
    ("widget exploded".toList) (by decide) (by decide) (by decide) (by decide) (by decide)

theorem mem_of_lookup_eq_some {α β : Type} [BEq α] [LawfulBEq α] :
    ∀ (l : List (α × β)) (a : α) (b : β), List.lookup a l = some b → (a, b) ∈ l := by
  intro l
  induction l with
  | nil => intro a b h; simp [List.lookup] at h
  | cons p t ih =>
    intro a b h
    obtain ⟨k, v⟩ := p
    rw [List.lookup] at h
    cases hak : (a == k) with
    | true =>
      rw [hak] at h
      simp only [Option.some.injEq] at h
      have hk : a = k := eq_of_beq hak
      subst hk
      subst h
      simp
    | false =>
      rw [hak] at h
      exact List.mem_cons_of_mem _ (ih a b h)

theorem translitMapChar_length_le (c : Char) : (translitMapChar c).length ≤ 3 := by
  unfold translitMapChar
  cases h : List.lookup c charMap with
  | none => simp
  | some s =>
    have hm : (c, s) ∈ charMap := mem_of_lookup_eq_some charMap c s h
    have hb : ∀ p ∈ charMap, (p.2).length ≤ 3 := by decide
    have hs := hb (c, s) hm
    by_cases he : s.isEmpty <;> simp [he]
    exact hs

theorem flatMap_translit_length_le (l : List Char) :
    (l.flatMap translitMapChar).length ≤ 3 * l.length := by
  induction l with
  | nil => simp
  | cons c t ih =>
    rw [List.flatMap_cons, List.length_append]
    have := translitMapChar_length_le c
    simp only [List.length_cons]
    omega

theorem collapseHyphenRuns_length_le :
    ∀ (l : List Char) (b : Bool), (collapseHyphenRuns b l).length ≤ l.length := by
  intro l
  induction l with
  | nil => intro b; simp [collapseHyphenRuns]
  | cons c t ih =>
    intro b
    simp only [collapseHyphenRuns]
    have h1 := ih true
    have h2 := ih false
    cases hc : (c == '-') <;> cases b <;> simp [List.length_cons] <;> omega

theorem collapseHyphenRuns_all :
    ∀ (l : List Char) (b : Bool) (p : Char → Bool), l.all p = true →
      (collapseHyphenRuns b l).all p = true := by
  intro l
  induction l with
  | nil => intro b p _; rfl
  | cons c t ih =>
    intro b p h
    rw [List.all_cons, Bool.and_eq_true] at h
    simp only [collapseHyphenRuns]
    cases hc : (c == '-') with
    | true =>
      have hp : p '-' = true := eq_of_beq hc ▸ h.1
      cases b <;> simp [hp, ih true p h.2]
    | false =>
      simp [h.1, ih false p h.2]

theorem dropLeadHyphen_length_le (l : List Char) :
    (dropLeadHyphen l).length ≤ l.length := by
  unfold dropLeadHyphen
  split <;> simp

theorem dropLeadHyphen_all (l : List Char) (p : Char → Bool) (h : l.all p = true) :
    (dropLeadHyphen l).all p = true := by
  unfold dropLeadHyphen
  split
  · rw [List.all_cons, Bool.and_eq_true] at h
    exact h.2
  · exact h

theorem dropTrailHyphen_length_le (l : List Char) :
    (dropTrailHyphen l).length ≤ l.length := by
  unfold dropTrailHyphen
  rw [List.length_reverse]
  have := dropLeadHyphen_length_le l.reverse
  simp only [List.length_reverse] at this
  exact this

theorem dropTrailHyphen_all (l : List Char) (p : Char → Bool) (h : l.all p = true) :
    (dropTrailHyphen l).all p = true := by
  unfold dropTrailHyphen
  rw [List.all_reverse]
  apply dropLeadHyphen_all
  rw [List.all_reverse]
  exact h

theorem transliterate_all_slugChar (text : List Char) :
    (transliterate text).all isSlugChar = true := by
  unfold transliterate
  apply dropTrailHyphen_all
  apply dropLeadHyphen_all
  apply collapseHyphenRuns_all
  rw [List.all_eq_true]
  intro x hx
  exact (List.mem_filter.mp hx).2

theorem transliterate_length_le (text : List Char) :
    (transliterate text).length ≤ 3 * text.length := by
  unfold transliterate
  have h1 := dropTrailHyphen_length_le (dropLeadHyphen
    (collapseHyphenRuns false
      (((text.map lowerChar).flatMap translitMapChar).filter isSlugChar)))
  have h2 := dropLeadHyphen_length_le (collapseHyphenRuns false
    (((text.map lowerChar).flatMap translitMapChar).filter isSlugChar))
  have h3 := collapseHyphenRuns_length_le
    (((text.map lowerChar).flatMap translitMapChar).filter isSlugChar) false
  have h4 := List.length_filter_le isSlugChar
    ((text.map lowerChar).flatMap translitMapChar)
  have h5 := flatMap_translit_length_le (text.map lowerChar)
  rw [List.length_map] at h5
  omega

set_option maxRecDepth 8192 in
/-- Counterexample to C6 as stated: the 50-character Cyrillic title of
fifty щ (which matches no test-id prefix, so the slug source is the whole
title) yields a slug of 150 characters — the title is truncated to 50
characters before transliteration, and each щ expands to the three-letter
sch — violating the claimed bound of 50. -/
theorem slug_length_cex :
    (slugOf titleShcha).length = 150 ∧ ¬ (slugOf titleShcha).length ≤ 50 := by
  decide

/-- Claim C6 (amended): for every test title, the slug component of the
generated artifact name contains only characters from `[a-z0-9-]`, and its
length is at most 150: the pre-transliteration source is truncated to at
most 50 characters, and transliteration expands each character to at most
three. -/
theorem slug_charset_and_boundedLength (title : List Char) :
    (slugOf title).all isSlugChar = true ∧
    (descSource title).length ≤ 50 ∧
    (slugOf title).length ≤ 150 := by
  have hds : (descSource title).length ≤ 50 := by
    unfold descSource
    cases matchDesc title <;> simp [List.length_take]
  refine ⟨transliterate_all_slugChar (descSource title), hds, ?_⟩
  have h := transliterate_length_le (descSource title)
  unfold slugOf
  omega

/-- Claim C7: `copyToClipboard` attempts strategy 1 first and attempts
strategy 2 exactly when strategy 1 fails; it returns true iff either
strategy succeeds and false iff both fail; and it never throws past its
boundary — both internal rejections are caught, so the model is a total
function into `Bool` for every environment and DOM state. -/
theorem copyToClipboard_fallbackChain (env : ClipboardEnv) (dom : DomState) :
    ((copyToClipboard env dom).2.2.strategy2Attempted = true ↔
      strategy1 env = Except.error ()) ∧
    ((copyToClipboard env dom).1 = true ↔
      (strategy1 env = Except.ok () ∨ (strategy2 env dom).1 = Except.ok ())) ∧
    ((copyToClipboard env dom).1 = false ↔
      (strategy1 env = Except.error () ∧ (strategy2 env dom).1 = Except.error ())) := by
  obtain ⟨g, nw, fb, ec⟩ := env
  cases g <;> cases nw <;> cases fb <;>
    simp [copyToClipboard, strategy1, strategy2]

/-- Claim C8: `copyToClipboard` mutates the document only transiently —
when strategy 1 succeeds the call returns `true` with strategy 2 never
invoked and no element appended, and on every path (in particular when both
strategies fail and `false` is returned) the DOM state after the call
equals the DOM state before it: no residual temporary textarea remains. -/
theorem copyToClipboard_transientDom (env : ClipboardEnv) (dom : DomState) :
    (strategy1 env = Except.ok () →
      copyToClipboard env dom =
        (true, dom, ⟨false, 0⟩)) ∧
    ((copyToClipboard env dom).1 = false → (copyToClipboard env dom).2.1 = dom) ∧
    (copyToClipboard env dom).2.1.tempTextareas = dom.tempTextareas := by
  obtain ⟨g, nw, fb, ec⟩ := env
  obtain ⟨n⟩ := dom
  cases g <;> cases nw <;> cases fb <;>
    simp [copyToClipboard, strategy1, strategy2]

/-- Witness for C8: with both strategies failing, the call returns false
and the DOM is exactly as before. -/
theorem copyToClipboard_transientDom_witness :
    (copyToClipboard envBothFail domClean).1 = false ∧
    (copyToClipboard envBothFail domClean).2.1 = domClean :=
  ⟨by decide, (copyToClipboard_transientDom envBothFail domClean).2.1 (by decide)⟩

theorem take_replaceFirstT_congr :
    ∀ (q a b : List Char) (n : Nat), n ≤ q.length →
      (replaceFirstT (q ++ a)).take n = (replaceFirstT (q ++ b)).take n := by
  intro q
  induction q with
  | nil =>
    intro a b n h
    have hn : n = 0 := by simpa using h
    subst hn
    simp
  | cons c q ih =>
    intro a b n h
    cases n with
    | zero => simp
    | succ m =>
      have hm : m ≤ q.length := by simpa using h
      simp only [List.cons_append, replaceFirstT, List.append_eq]
      by_cases hc : c = 'T'
      · rw [if_pos hc, if_pos hc]
        simp only [List.take_succ_cons]
        rw [List.take_append_of_le_length hm, List.take_append_of_le_length hm]
      · rw [if_neg hc, if_neg hc]
        simp only [List.take_succ_cons]
        rw [ih a b m hm]

theorem natToCharsAux_length_pos (fuel m : Nat) (h : 1 ≤ fuel) :
    1 ≤ (natToCharsAux fuel m).length := by
  cases fuel with
  | zero => omega
  | succ f =>
    unfold natToCharsAux
    by_cases hm : m < 10 <;> simp [hm]

theorem natToCharsAux_length_ge_two (fuel m : Nat) (hf : 2 ≤ fuel) (hm : 10 ≤ m) :
    2 ≤ (natToCharsAux fuel m).length := by
  cases fuel with
  | zero => omega
  | succ f =>
    unfold natToCharsAux
    have hm' : ¬ m < 10 := by omega
    simp only [hm', if_false, List.length_append, List.length_cons, List.length_nil]
    have := natToCharsAux_length_pos f (m / 10) (by omega)
    omega

theorem natToCharsAux_length_ge_three (fuel m : Nat) (hf : 3 ≤ fuel) (hm : 100 ≤ m) :
    3 ≤ (natToCharsAux fuel m).length := by
  cases fuel with
  | zero => omega
  | succ f =>
    unfold natToCharsAux
    have hm' : ¬ m < 10 := by omega
    simp only [hm', if_false, List.length_append, List.length_cons, List.length_nil]
    have := natToCharsAux_length_ge_two f (m / 10) (by omega) (by omega)
    omega

theorem natToCharsAux_length_ge_four (fuel m : Nat) (hf : 4 ≤ fuel) (hm : 1000 ≤ m) :
    4 ≤ (natToCharsAux fuel m).length := by
  cases fuel with
  | zero => omega
  | succ f =>
    unfold natToCharsAux
    have hm' : ¬ m < 10 := by omega
    simp only [hm', if_false, List.length_append, List.length_cons, List.length_nil]
    have := natToCharsAux_length_ge_three f (m / 10) (by omega) (by omega)
    omega

theorem pad2_length_ge (n : Nat) : 2 ≤ (pad2 n).length := by
  unfold pad2
  by_cases h : n < 10
  · simp only [h, if_true, List.length_cons]
    have := natToCharsAux_length_pos (n + 1) n (by omega)
    unfold natToChars
    omega
  · simp only [h, if_false]
    unfold natToChars
    exact natToCharsAux_length_ge_two (n + 1) n (by omega) (by omega)

theorem pad4_length_ge (n : Nat) : 4 ≤ (pad4 n).length := by
  unfold pad4
  by_cases h1 : n < 10
  · simp only [h1, if_true, List.length_cons]
    have := natToCharsAux_length_pos (n + 1) n (by omega)
    unfold natToChars
    omega
  · simp only [h1, if_false]
    by_cases h2 : n < 100
    · simp only [h2, if_true, List.length_cons]
      have := natToCharsAux_length_ge_two (n + 1) n (by omega) (by omega)
      unfold natToChars
      omega
    · simp only [h2, if_false]
      by_cases h3 : n < 1000
      · simp only [h3, if_true, List.length_cons]
        have := natToCharsAux_length_ge_three (n + 1) n (by omega) (by omega)
        unfold natToChars
        omega
      · simp only [h3, if_false]
        unfold natToChars
        exact natToCharsAux_length_ge_four (n + 1) n (by omega) (by omega)

theorem secPrefix_length_ge (t : TestClock) : 19 ≤ (secPrefix t).length := by
  unfold secPrefix
  simp only [List.length_append, List.length_cons]
  have h1 := pad4_length_ge t.year
  have h2 := pad2_length_ge t.month
  have h3 := pad2_length_ge t.day
  have h4 := pad2_length_ge t.hour
  have h5 := pad2_length_ge t.minute
  have h6 := pad2_length_ge t.second
  omega

/-- Claim C9: the artifact namer is deterministic in its inputs and the
wall clock truncated to seconds — two invocations with identical test
metadata, artifact type and step label whose clock readings agree on every
field except the milliseconds yield character-for-character identical
relative paths. -/
theorem generateScreenshotName_deterministic (meta : TestMeta) (ty : ScreenshotType)
    (sd : List Char) (t1 t2 : TestClock)
    (hy : t1.year = t2.year) (hmo : t1.month = t2.month) (hd : t1.day = t2.day)
    (hh : t1.hour = t2.hour) (hmi : t1.minute = t2.minute) (hs : t1.second = t2.second) :
    generateScreenshotName meta ty sd t1 = generateScreenshotName meta ty sd t2 := by
  have hsp : secPrefix t1 = secPrefix t2 := by
    unfold secPrefix
    rw [hy, hmo, hd, hh, hmi, hs]
  have hts : formatTimestamp t1 = formatTimestamp t2 := by
    unfold formatTimestamp isoString
    rw [List.map_append, List.map_append, hsp]
    apply take_replaceFirstT_congr
    rw [List.length_map]
    exact secPrefix_length_ge t2
  unfold generateScreenshotName
  rw [hts]

/-- Witness for C9: two clock readings in the same second (1 ms and 999 ms
past it) give the same path for the sample metadata. -/
theorem generateScreenshotName_deterministic_witness :
    generateScreenshotName metaSample ScreenshotType.FAILURE [] clockEarlyMs =
      generateScreenshotName metaSample ScreenshotType.FAILURE [] clockLateMs :=
  generateScreenshotName_deterministic metaSample ScreenshotType.FAILURE []
    clockEarlyMs clockLateMs rfl rfl rfl rfl rfl rfl
